import Mathlib

/-!
Shallow embedding of the Editor.js Header block tool (`src/index.js`).

JavaScript dynamic values are modelled by `JsValue`; JS truthiness,
string coercion and `parseInt` are modelled explicitly.  The widget
instance (`class Header`) becomes a `Header` structure whose methods are
functions on it; the DOM element it owns becomes the `Element`
structure, with `classList` modelled as a DOM token list (ordered,
duplicate-free adds).
-/

/-- A JavaScript primitive value as it can appear in config / data fields.
Numbers are modelled as integers (all numbers appearing in this plugin's
data flow are integral ids). -/
inductive JsValue where
  | undef
  | nullv
  | str (s : String)
  | num (n : Int)
  | boolv (b : Bool)
deriving DecidableEq, Repr

/-- JS truthiness of a primitive value. -/
def jsTruthy : JsValue → Bool
  | .undef => false
  | .nullv => false
  | .str s => s != ""
  | .num n => n != 0
  | .boolv b => b

/-- JS ToString coercion of a primitive value. -/
def jsToString : JsValue → String
  | .undef => "undefined"
  | .nullv => "null"
  | .str s => s
  | .num n => toString n
  | .boolv b => if b then "true" else "false"

/-- Leading decimal digits of a character list. -/
def leadingDigits (cs : List Char) : List Char :=
  cs.takeWhile (fun c => c.isDigit)

/-- Value of a digit run, most significant first. -/
def digitsToNat (ds : List Char) : Nat :=
  ds.foldl (fun acc c => acc * 10 + (c.toNat - 48)) 0

/-- JS `parseInt(s, 10)` on a string: skip leading whitespace, optional
sign, then the longest run of decimal digits; `none` models `NaN`. -/
def parseIntStr (s : String) : Option Int :=
  let cs := s.toList.dropWhile (fun c => c == ' ' || c == '\t' || c == '\n' || c == '\r')
  match cs with
  | '-' :: rest =>
      let ds := leadingDigits rest
      if ds.isEmpty then none else some (-(digitsToNat ds : Int))
  | '+' :: rest =>
      let ds := leadingDigits rest
      if ds.isEmpty then none else some ((digitsToNat ds : Int))
  | _ =>
      let ds := leadingDigits cs
      if ds.isEmpty then none else some ((digitsToNat ds : Int))

/-- JS `parseInt(v, 10)` on a primitive value: the value is coerced to a
string and parsed.  On an integer number the coercion round-trips, so
that case is the identity. -/
def parseIntJS : JsValue → Option Int
  | .num n => some n
  | v => parseIntStr (jsToString v)

/-- Modelled from the spec: the icon assets (`src/icons/h1.js` ..
`src/icons/h6.js`, `src/icons/header.js`) are not under `src/`; the spec
calls them static, inert data, so each is an opaque string identifier. -/
def h1Icon : String := "h1Icon"

def h2Icon : String := "h2Icon"

def h3Icon : String := "h3Icon"

def h4Icon : String := "h4Icon"

def h5Icon : String := "h5Icon"

def h6Icon : String := "h6Icon"

def headerIcon : String := "headerIcon"

/-- Modelled from the spec: `src/icons/alignment.js` is not under `src/`;
it maps an alignment name to its static icon. -/
def getAlignmentIcon (align : String) : String := "alignIcon-" ++ align

/-- One entry of `Header.HEADER_LEVELS`: `{ id, tag, icon }`. -/
structure LevelDesc where
  id : Int
  tag : String
  icon : String
deriving DecidableEq, Repr

/-- `static get HEADER_LEVELS()`. -/
def Header.HEADER_LEVELS : List LevelDesc :=
  [ ⟨1, "H1", h1Icon⟩,
    ⟨2, "H2", h2Icon⟩,
    ⟨3, "H3", h3Icon⟩,
    ⟨4, "H4", h4Icon⟩,
    ⟨5, "H5", h5Icon⟩,
    ⟨6, "H6", h6Icon⟩ ]

/-- `static get DEFAULT_HEADER_LEVEL()`. -/
def Header.DEFAULT_HEADER_LEVEL : LevelDesc := ⟨1, "H1", h1Icon⟩

/-- `static get ALIGN_TYPES()`. -/
def Header.ALIGN_TYPES : List String := ["left", "center", "right", "justify"]

/-- `static get DEFAULT_ALIGN_TYPE()`. -/
def Header.DEFAULT_ALIGN_TYPE : String := "left"

/-- The tool configuration object.  `none` on a list field models an
absent (falsy) allow-list; note a present-but-empty list is kept, as in
the source, where an empty array is truthy. -/
structure Config where
  placeholder : Option String
  levels : Option (List Int)
  defaultLevel : JsValue
  alignTypes : Option (List String)
  defaultAlignType : JsValue
deriving Repr

/-- The `{}` configuration substituted by `config || {}`. -/
def emptyConfig : Config := ⟨none, none, .undef, none, .undef⟩

/-- `get availableLevels()`: built-in levels filtered by the configured
allow-list when one is present (JS `Array.prototype.includes` is
membership). -/
def availableLevels (cfg : Config) : List LevelDesc :=
  match cfg.levels with
  | some ls => Header.HEADER_LEVELS.filter (fun level => decide (level.id ∈ ls))
  | none => Header.HEADER_LEVELS

/-- `get userDefaultLevel()`: when `config.defaultLevel` is truthy, look
up `parseInt(config.defaultLevel, 10)` among the available levels
(strict equality with `NaN` never holds); otherwise, and when the lookup
fails, return the built-in default. -/
def userDefaultLevel (cfg : Config) : LevelDesc :=
  if jsTruthy cfg.defaultLevel then
    match (availableLevels cfg).find?
        (fun levelItem => decide (some levelItem.id = parseIntJS cfg.defaultLevel)) with
    | some userSpecified => userSpecified
    | none => Header.DEFAULT_HEADER_LEVEL
  else Header.DEFAULT_HEADER_LEVEL

/-- Whether `get userDefaultLevel()` hits its `console.warn` call: the
configured default was truthy but not found among available levels. -/
def userDefaultLevelWarns (cfg : Config) : Bool :=
  jsTruthy cfg.defaultLevel &&
    ((availableLevels cfg).find?
        (fun levelItem => decide (some levelItem.id = parseIntJS cfg.defaultLevel))).isNone

/-- `get availableAlignTypes()`. -/
def availableAlignTypes (cfg : Config) : List String :=
  match cfg.alignTypes with
  | some as => Header.ALIGN_TYPES.filter (fun align => decide (align ∈ as))
  | none => Header.ALIGN_TYPES

/-- `get userDefaultAlignType()`: strict equality of an available name
with the configured value holds only for that very string. -/
def userDefaultAlignType (cfg : Config) : String :=
  if jsTruthy cfg.defaultAlignType then
    match (availableAlignTypes cfg).find?
        (fun align => decide (JsValue.str align = cfg.defaultAlignType)) with
    | some userSpecified => userSpecified
    | none => Header.DEFAULT_ALIGN_TYPE
  else Header.DEFAULT_ALIGN_TYPE

/-- Whether `get userDefaultAlignType()` hits its `console.warn` call. -/
def userDefaultAlignTypeWarns (cfg : Config) : Bool :=
  jsTruthy cfg.defaultAlignType &&
    ((availableAlignTypes cfg).find?
        (fun align => decide (JsValue.str align = cfg.defaultAlignType))).isNone

/-- The normalized block state `this._data`: `{ text, level, align }`.
`text` and `align` keep their JS value (the `||` fallback can leave any
truthy value there); `level` is always a number after normalization. -/
structure BlockData where
  text : JsValue
  level : Int
  align : JsValue
deriving DecidableEq, Repr

/-- The input `data` as seen through `typeof`: a real object (fields
absent on it are `undefined`), `null` (whose `typeof` IS `'object'`), or
a non-object primitive. -/
inductive JsDataInput where
  | obj (text level align : JsValue)
  | nullv
  | prim (v : JsValue)
deriving DecidableEq, Repr

/-- Body of `_normalizeData` once `data` holds an object's fields:
`text = data.text || ''`, `level = parseInt(data.level, 10) ||
userDefaultLevel.id`, `align = data.align || userDefaultAlignType`. -/
def _normalizeObj (cfg : Config) (text level align : JsValue) : BlockData :=
  { text := if jsTruthy text then text else .str ""
    level :=
      match parseIntJS level with
      | some n => if n = 0 then (userDefaultLevel cfg).id else n
      | none => (userDefaultLevel cfg).id
    align := if jsTruthy align then align else .str (userDefaultAlignType cfg) }

/-- `_normalizeData(data)`.  A non-object (`typeof data !== 'object'`)
is replaced by `{}`; `null`, whose `typeof` is `'object'`, is NOT
replaced, and the subsequent `data.text` access throws a `TypeError`,
modelled as `none`. -/
def _normalizeData (cfg : Config) : JsDataInput → Option BlockData
  | .obj t l a => some (_normalizeObj cfg t l a)
  | .prim _ => some (_normalizeObj cfg .undef .undef .undef)
  | .nullv => none

/-- `get currentLevel()`: the available level whose id strictly equals
the stored level, else `userDefaultLevel` (a found descriptor object is
always truthy). -/
def currentLevel (cfg : Config) (storedLevel : Int) : LevelDesc :=
  match (availableLevels cfg).find? (fun levelItem => decide (levelItem.id = storedLevel)) with
  | some level => level
  | none => userDefaultLevel cfg

/-- `get currentAlignType()`: the available name strictly equal to the
stored align value, else `userDefaultAlignType`; a found empty string
would be falsy and also fall back (unreachable for the built-in names,
kept for faithfulness). -/
def currentAlignType (cfg : Config) (storedAlign : JsValue) : String :=
  match (availableAlignTypes cfg).find? (fun align => decide (JsValue.str align = storedAlign)) with
  | some alignType => if alignType = "" then userDefaultAlignType cfg else alignType
  | none => userDefaultAlignType cfg

/-- `this._CSS.wrapper`. -/
def wrapperClass : String := "ce-header"

/-- `this._CSS.wrapperForAlignment(alignType)`. -/
def wrapperForAlignment (alignType : String) : String :=
  "ce-header-align-" ++ alignType

/-- The DOM element owned by the widget, as far as the plugin observes
it: tag name, inner markup, class token list, editability flag and the
translated placeholder dataset attribute. -/
structure Element where
  tag : String
  innerHTML : String
  classList : List String
  contentEditable : Bool
  placeholder : String
deriving DecidableEq, Repr

/-- `DOMTokenList.remove`. -/
def classListRemove (cl : List String) (c : String) : List String :=
  cl.filter (fun x => x != c)

/-- `DOMTokenList.add`: a token already present is not duplicated. -/
def classListAdd (cl : List String) (c : String) : List String :=
  if c ∈ cl then cl else cl ++ [c]

/-- `_getElement()`: builds the element from the current state.  `tr` is
the host's `api.i18n.t` translation function. -/
def _getElement (tr : String → String) (cfg : Config) (readOnly : Bool)
    (d : BlockData) : Element :=
  { tag := (currentLevel cfg d.level).tag
    innerHTML := if jsTruthy d.text then jsToString d.text else ""
    classList :=
      classListAdd (classListAdd [] wrapperClass)
        (wrapperForAlignment (currentAlignType cfg d.align))
    contentEditable := !readOnly
    placeholder := tr (cfg.placeholder.getD "") }

/-- The widget instance: `this._api.i18n.t`, `this._readOnly`,
`this._config`, `this._data`, `this._element`. -/
structure Header where
  tr : String → String
  readOnly : Bool
  config : Config
  data : BlockData
  element : Element

/-- The constructor: `config || {}` substitutes the empty configuration,
`_normalizeData` may throw (on `null` data), then the element is
built. -/
def Header.make (tr : String → String) (readOnly : Bool)
    (config : Option Config) (data : JsDataInput) : Option Header :=
  let cfg := config.getD emptyConfig
  match _normalizeData cfg data with
  | some d => some ⟨tr, readOnly, cfg, d, _getElement tr cfg readOnly d⟩
  | none => none

/-- `render()`. -/
def Header.render (h : Header) : Element := h.element

/-- The record `save` returns. -/
structure SavedData where
  text : String
  level : Int
  align : String
deriving DecidableEq, Repr

/-- `save(blockContent)`: text from the live element, level and align
re-resolved from state. -/
def Header.save (h : Header) (blockContent : Element) : SavedData :=
  { text := blockContent.innerHTML
    level := (currentLevel h.config h.data.level).id
    align := currentAlignType h.config h.data.align }

/-- `validate(savedData)`. -/
def Header.validate (savedData : SavedData) : Bool :=
  savedData.text.trim != ""

/-- `_setHeaderLevel(newLevel)`: `newLevel` is a number or `undefined`
(`none`); the stored level becomes `parseInt(newLevel, 10) ||
userDefaultLevel.id`.  When a level was supplied and the element has a
parent (`hasParent`, host-owned state), a fresh element is built from
the updated state, the old element's markup is copied onto it, and it
replaces the old element as the tracked one. -/
def Header._setHeaderLevel (h : Header) (hasParent : Bool) (newLevel : Option Int) : Header :=
  let lvl : Int :=
    match newLevel with
    | some n => if n = 0 then (userDefaultLevel h.config).id else n
    | none => (userDefaultLevel h.config).id
  let h1 : Header := { h with data := { h.data with level := lvl } }
  if newLevel.isSome && hasParent then
    let newHeader := _getElement h1.tr h1.config h1.readOnly h1.data
    { h1 with element := { newHeader with innerHTML := h.element.innerHTML } }
  else h1

/-- `_setAlignType(newAlign)`: store the new name, then for every known
alignment remove its class and re-add it only for the new name. -/
def Header._setAlignType (h : Header) (newAlign : String) : Header :=
  let cl := Header.ALIGN_TYPES.foldl
    (fun acc align =>
      let acc1 := classListRemove acc (wrapperForAlignment align)
      if newAlign = align then classListAdd acc1 (wrapperForAlignment align) else acc1)
    h.element.classList
  { h with
    data := { h.data with align := .str newAlign }
    element := { h.element with classList := cl } }

/-- `_getFormattedLabel(name, prefix)` (`pfx` here): with a truthy
prefix, translate the template concatenation; otherwise translate the
name with its first letter capitalized. -/
def _getFormattedLabel (tr : String → String) (name : String) (pfx : Option String) : String :=
  match pfx with
  | some p => tr (p ++ name)
  | none => tr ((name.take 1).toUpper ++ name.drop 1)

/-- What a settings entry's `onActivate` closure does when invoked. -/
inductive SettingAction where
  | setLevel (id : Int)
  | setAlign (name : String)
deriving DecidableEq, Repr

/-- `_createSetting(icon, label, onActivate, isActive, group)`. -/
structure MenuSetting where
  icon : String
  label : String
  onActivate : SettingAction
  isActive : Bool
  closeOnActivate : Bool
  toggle : String
deriving DecidableEq, Repr

/-- `_createSetting` body: `closeOnActivate` is always `true`, the group
becomes the `toggle` field. -/
def _createSetting (icon label : String) (onActivate : SettingAction)
    (isActive : Bool) (group : String) : MenuSetting :=
  ⟨icon, label, onActivate, isActive, true, group⟩

/-- `renderSettings()`: maps over `Header.HEADER_LEVELS` and
`Header.ALIGN_TYPES` (the full built-in lists, not the available
subsets), heading entries first. -/
def Header.renderSettings (tr : String → String) (cfg : Config) (d : BlockData) :
    List MenuSetting :=
  let headerTypes := Header.HEADER_LEVELS.map (fun level =>
    _createSetting level.icon
      (_getFormattedLabel tr (toString level.id) (some "Heading "))
      (.setLevel level.id)
      (decide (level.id = (currentLevel cfg d.level).id))
      "heading")
  let alignTypes := Header.ALIGN_TYPES.map (fun align =>
    _createSetting (getAlignmentIcon align)
      (_getFormattedLabel tr align none)
      (.setAlign align)
      (decide (align = currentAlignType cfg d.align))
      "align")
  headerTypes ++ alignTypes

/-- The pasted element as the plugin observes it. -/
structure PasteElement where
  tagName : String
  innerHTML : String
deriving DecidableEq, Repr

/-- The `switch (headerTag.tagName)` of `onPaste`: every branch,
including `default`, overwrites the initial `currentLevel.id` value. -/
def tagToLevel (cfg : Config) (tagName : String) : Int :=
  if tagName = "H1" then 1
  else if tagName = "H2" then 2
  else if tagName = "H3" then 3
  else if tagName = "H4" then 4
  else if tagName = "H5" then 5
  else if tagName = "H6" then 6
  else (userDefaultLevel cfg).id

/-- `onPaste(event)`: rebuild the state from the pasted markup, the
mapped level, and the alignment current before the paste, then rebuild
the element.  The rebuilt state goes through the object branch of
`_normalizeData`. -/
def Header.onPaste (h : Header) (headerTag : PasteElement) : Header :=
  let level := tagToLevel h.config headerTag.tagName
  let d := _normalizeObj h.config (.str headerTag.innerHTML) (.num level)
    (.str (currentAlignType h.config h.data.align))
  { h with data := d, element := _getElement h.tr h.config h.readOnly d }

/-- The fragment passed to `merge`; an absent `text` field reads as
`undefined`. -/
structure MergeFragment where
  text : JsValue
deriving DecidableEq, Repr

/-- `merge(data)`: `this._element.innerHTML = this._element.innerHTML +
data.text || ''`.  By JS precedence the concatenation binds tighter
than `||`, and `+` coerces `data.text` to a string (`undefined` becomes
the text `"undefined"`). -/
def Header.merge (h : Header) (data : MergeFragment) : Header :=
  let s := h.element.innerHTML ++ jsToString data.text
  { h with element := { h.element with innerHTML := if s = "" then "" else s } }

/-! ## Supporting lemmas -/

theorem find?_decide_eq {α : Type} {q : α → Prop} [DecidablePred q] {l : List α} {a : α}
    (h : l.find? (fun x => decide (q x)) = some a) : q a := by
  have h2 := List.find?_some (p := fun x => decide (q x)) h
  simpa using h2

theorem find?_decide_isSome {α : Type} {q : α → Prop} [DecidablePred q] {l : List α} {a : α}
    (ha : a ∈ l) (hq : q a) : (l.find? (fun x => decide (q x))).isSome :=
  List.find?_isSome.mpr ⟨a, ha, decide_eq_true hq⟩

theorem mem_availableLevels {cfg : Config} {l : LevelDesc}
    (hl : l ∈ availableLevels cfg) : l ∈ Header.HEADER_LEVELS := by
  unfold availableLevels at hl
  cases h : cfg.levels with
  | some ls => rw [h] at hl; exact List.mem_of_mem_filter hl
  | none => rw [h] at hl; exact hl

theorem availableLevels_sublist (cfg : Config) :
    (availableLevels cfg).Sublist Header.HEADER_LEVELS := by
  unfold availableLevels
  cases cfg.levels with
  | some ls => exact List.filter_sublist _
  | none => exact List.Sublist.refl _

theorem mem_availableAlignTypes {cfg : Config} {a : String}
    (ha : a ∈ availableAlignTypes cfg) : a ∈ Header.ALIGN_TYPES := by
  unfold availableAlignTypes at ha
  cases h : cfg.alignTypes with
  | some as => rw [h] at ha; exact List.mem_of_mem_filter ha
  | none => rw [h] at ha; exact ha

theorem availableAlignTypes_sublist (cfg : Config) :
    (availableAlignTypes cfg).Sublist Header.ALIGN_TYPES := by
  unfold availableAlignTypes
  cases cfg.alignTypes with
  | some as => exact List.filter_sublist _
  | none => exact List.Sublist.refl _

theorem availableLevels_ids_nodup (cfg : Config) :
    ((availableLevels cfg).map LevelDesc.id).Nodup :=
  List.Nodup.sublist ((availableLevels_sublist cfg).map LevelDesc.id) (by decide)

theorem userDefaultLevel_mem (cfg : Config) :
    userDefaultLevel cfg ∈ Header.HEADER_LEVELS := by
  unfold userDefaultLevel
  by_cases ht : jsTruthy cfg.defaultLevel
  · rw [if_pos ht]
    cases hfind : (availableLevels cfg).find?
        (fun levelItem => decide (some levelItem.id = parseIntJS cfg.defaultLevel)) with
    | some l => exact mem_availableLevels (List.mem_of_find?_eq_some hfind)
    | none => decide
  · rw [if_neg ht]; decide

theorem userDefaultLevel_id_ne_zero (cfg : Config) : (userDefaultLevel cfg).id ≠ 0 :=
  (by decide : ∀ l ∈ Header.HEADER_LEVELS, l.id ≠ 0) _ (userDefaultLevel_mem cfg)

theorem currentLevel_mem_headers (cfg : Config) (lvl : Int) :
    currentLevel cfg lvl ∈ Header.HEADER_LEVELS := by
  unfold currentLevel
  cases hfind : (availableLevels cfg).find? (fun levelItem => decide (levelItem.id = lvl)) with
  | some l => exact mem_availableLevels (List.mem_of_find?_eq_some hfind)
  | none => exact userDefaultLevel_mem cfg

theorem currentLevel_of_id_mem {cfg : Config} {lvl : Int}
    (hmem : lvl ∈ (availableLevels cfg).map LevelDesc.id) :
    currentLevel cfg lvl ∈ availableLevels cfg ∧ (currentLevel cfg lvl).id = lvl := by
  obtain ⟨l, hl, hid⟩ := List.mem_map.mp hmem
  unfold currentLevel
  cases hfind : (availableLevels cfg).find? (fun levelItem => decide (levelItem.id = lvl)) with
  | some l' =>
      show l' ∈ availableLevels cfg ∧ l'.id = lvl
      exact ⟨List.mem_of_find?_eq_some hfind,
        find?_decide_eq (q := fun levelItem : LevelDesc => levelItem.id = lvl) hfind⟩
  | none =>
      exfalso
      have hsome := find?_decide_isSome (q := fun levelItem : LevelDesc => levelItem.id = lvl) hl hid
      rw [hfind] at hsome
      simp at hsome

theorem currentLevel_default_of_not_found {cfg : Config} {lvl : Int}
    (h : ∀ l ∈ availableLevels cfg, l.id ≠ lvl) :
    currentLevel cfg lvl = userDefaultLevel cfg := by
  unfold currentLevel
  cases hfind : (availableLevels cfg).find? (fun levelItem => decide (levelItem.id = lvl)) with
  | some l' =>
      exact absurd (find?_decide_eq hfind) (h l' (List.mem_of_find?_eq_some hfind))
  | none => rfl

theorem currentLevel_mem_of_default_mem {cfg : Config} (lvl : Int)
    (hd : userDefaultLevel cfg ∈ availableLevels cfg) :
    currentLevel cfg lvl ∈ availableLevels cfg := by
  unfold currentLevel
  cases hfind : (availableLevels cfg).find? (fun levelItem => decide (levelItem.id = lvl)) with
  | some l' => exact List.mem_of_find?_eq_some hfind
  | none => exact hd

theorem alignTypes_ne_empty : ∀ a ∈ Header.ALIGN_TYPES, a ≠ "" := by decide

theorem currentAlignType_eq_of_mem {cfg : Config} {al : String}
    (h : al ∈ availableAlignTypes cfg) :
    currentAlignType cfg (.str al) = al := by
  unfold currentAlignType
  cases hfind : (availableAlignTypes cfg).find?
      (fun align => decide (JsValue.str align = JsValue.str al)) with
  | some a' =>
      have ha' : a' = al := JsValue.str.inj
        (find?_decide_eq (q := fun align : String => JsValue.str align = JsValue.str al) hfind)
      have hne : a' ≠ "" :=
        alignTypes_ne_empty a' (mem_availableAlignTypes (List.mem_of_find?_eq_some hfind))
      show (if a' = "" then userDefaultAlignType cfg else a') = al
      rw [if_neg hne, ha']
  | none =>
      exfalso
      have hsome := find?_decide_isSome
        (q := fun align : String => JsValue.str align = JsValue.str al) h rfl
      rw [hfind] at hsome
      simp at hsome

theorem currentAlignType_mem_of_default_mem {cfg : Config} (v : JsValue)
    (hd : userDefaultAlignType cfg ∈ availableAlignTypes cfg) :
    currentAlignType cfg v ∈ availableAlignTypes cfg := by
  unfold currentAlignType
  cases hfind : (availableAlignTypes cfg).find?
      (fun align => decide (JsValue.str align = v)) with
  | some a' =>
      show (if a' = "" then userDefaultAlignType cfg else a') ∈ availableAlignTypes cfg
      by_cases he : a' = ""
      · rw [if_pos he]; exact hd
      · rw [if_neg he]; exact List.mem_of_find?_eq_some hfind
  | none => exact hd

theorem currentAlignType_default_of_not_found {cfg : Config} {v : JsValue}
    (h : ∀ a ∈ availableAlignTypes cfg, JsValue.str a ≠ v) :
    currentAlignType cfg v = userDefaultAlignType cfg := by
  unfold currentAlignType
  cases hfind : (availableAlignTypes cfg).find?
      (fun align => decide (JsValue.str align = v)) with
  | some a' =>
      exact absurd (find?_decide_eq hfind) (h a' (List.mem_of_find?_eq_some hfind))
  | none => rfl

/-! ## Claims -/

theorem string_if_empty (s : String) : (if s = "" then "" else s) = s := by
  by_cases h : s = "" <;> simp [h]

/-- A concrete widget instance whose element carries the markup `"Foo"`. -/
def hC1 : Header :=
  ⟨id, false, emptyConfig, ⟨.str "Foo", 1, .str "left"⟩,
    ⟨"H1", "Foo", ["ce-header", "ce-header-align-left"], true, ""⟩⟩

/-- C1 counterexample: merging the fragment `\x7b\x7d` (its `text` field is
`undefined`) into an element whose markup is `"Foo"` does not leave the
markup unchanged - `"Foo" + undefined` coerces to `"Fooundefined"`,
which is truthy, so the `|| ''` fallback never restores the old
markup. -/
theorem c1_merge_counterexample :
    hC1.element.innerHTML = "Foo" ∧
    (hC1.merge ⟨.undef⟩).element.innerHTML = "Fooundefined" ∧
    (hC1.merge ⟨.undef⟩).element.innerHTML ≠ hC1.element.innerHTML := by
  refine ⟨rfl, rfl, by decide⟩

/-- C1 (amended): for every fragment whose `text` is a string, merge
appends that string to the element's inner markup (so an empty-string
`text` leaves the markup unchanged, and merge never throws); when the
fragment has no `text` field (it reads as `undefined`), merge still does
not throw, but instead of leaving the markup unchanged it appends the
literal text `"undefined"`. -/
theorem c1_merge_appends (h : Header) (t : String) :
    (h.merge ⟨.str t⟩).element.innerHTML = h.element.innerHTML ++ t ∧
    (h.merge ⟨.str ""⟩).element.innerHTML = h.element.innerHTML ∧
    (h.merge ⟨.undef⟩).element.innerHTML = h.element.innerHTML ++ "undefined" := by
  refine ⟨?_, ?_, ?_⟩
  · show (if h.element.innerHTML ++ jsToString (.str t) = "" then ""
      else h.element.innerHTML ++ jsToString (.str t)) = h.element.innerHTML ++ t
    rw [string_if_empty]; rfl
  · show (if h.element.innerHTML ++ jsToString (.str "") = "" then ""
      else h.element.innerHTML ++ jsToString (.str "")) = h.element.innerHTML
    rw [string_if_empty]
    exact String.append_empty _
  · show (if h.element.innerHTML ++ jsToString .undef = "" then ""
      else h.element.innerHTML ++ jsToString .undef) = h.element.innerHTML ++ "undefined"
    rw [string_if_empty]; rfl

/-- C2: the normalization function is NOT total - `typeof null` is
`'object'`, so `null` survives the non-object check and the following
`data.text` property access throws a `TypeError`; the same exception
escapes the constructor.  Every non-`null` malformed input (here:
`undefined`) is indeed normalized to a fully populated record with the
defaulted fields. -/
theorem c2_normalize_null_throws :
    _normalizeData emptyConfig .nullv = none ∧
    Header.make id false none .nullv = none ∧
    _normalizeData emptyConfig (.prim .undef) =
      some ⟨.str "", 1, .str "left"⟩ ∧
    _normalizeData emptyConfig (.obj .undef (.str "abc") .undef) =
      some ⟨.str "", 1, .str "left"⟩ := by
  refine ⟨rfl, rfl, by decide, by decide⟩

/-- A configuration whose allow-lists keep only level 2 and the
`"center"` alignment. -/
def cfgC3 : Config := ⟨none, some [2], .undef, some ["center"], .undef⟩

/-- The normalized state `{text:"x", level:2, align:"center"}`. -/
def dC3 : BlockData := ⟨.str "x", 2, .str "center"⟩

/-- C3: `renderSettings` ignores the configured allow-lists - it maps
over the full built-in `HEADER_LEVELS` and `ALIGN_TYPES`, so under a
configuration whose allow-lists keep a single level and a single
alignment it still emits six `"heading"`-group entries and four
`"align"`-group entries, in built-in order. -/
theorem c3_renderSettings_ignores_allowlists :
    (availableLevels cfgC3).length = 1 ∧
    (availableAlignTypes cfgC3).length = 1 ∧
    ((Header.renderSettings id cfgC3 dC3).filter (fun s => s.toggle == "heading")).length = 6 ∧
    ((Header.renderSettings id cfgC3 dC3).filter (fun s => s.toggle == "align")).length = 4 ∧
    (Header.renderSettings id cfgC3 dC3).map MenuSetting.onActivate =
      Header.HEADER_LEVELS.map (fun level => SettingAction.setLevel level.id) ++
        Header.ALIGN_TYPES.map SettingAction.setAlign := by
  refine ⟨by decide, by decide, by decide, by decide, by decide⟩

/-- A configuration whose level allow-list excludes the hardcoded
fallback level 1. -/
def cfgC4 : Config := ⟨none, some [2], .undef, some ["center"], .undef⟩

/-- C4 counterexample: with the allow-list `[2]` and the stale stored
level `5`, resolution falls back to the built-in default level 1, which
the allow-list excludes - the resolved current level is NOT a member of
the available levels, and the saved record inherits the violation; the
alignment side fails the same way. -/
theorem c4_counterexample :
    (currentLevel cfgC4 5).id = 1 ∧
    currentLevel cfgC4 5 ∉ availableLevels cfgC4 ∧
    currentAlignType cfgC4 (.str "justify") = "left" ∧
    currentAlignType cfgC4 (.str "justify") ∉ availableAlignTypes cfgC4 := by
  refine ⟨by decide, by decide, by decide, by decide⟩

/-- C4 (amended): resolution never throws; when the stored level or
align matches no available entry the resolved default is substituted;
and the resolved current level / alignment is a member of the available
set PROVIDED the resolved default itself is available (the hardcoded
fallbacks - level 1 and `"left"` - escape allow-lists that exclude
them, as the counterexample shows); under that proviso the level and
align fields of every save output satisfy the membership. -/
theorem c4_membership (cfg : Config) (lvl : Int) (al : JsValue) :
    ((∀ l ∈ availableLevels cfg, l.id ≠ lvl) →
      currentLevel cfg lvl = userDefaultLevel cfg) ∧
    ((∀ a ∈ availableAlignTypes cfg, JsValue.str a ≠ al) →
      currentAlignType cfg al = userDefaultAlignType cfg) ∧
    (userDefaultLevel cfg ∈ availableLevels cfg →
      currentLevel cfg lvl ∈ availableLevels cfg) ∧
    (userDefaultAlignType cfg ∈ availableAlignTypes cfg →
      currentAlignType cfg al ∈ availableAlignTypes cfg) ∧
    (∀ (h : Header) (e : Element), h.config = cfg → h.data.level = lvl → h.data.align = al →
      userDefaultLevel cfg ∈ availableLevels cfg →
      userDefaultAlignType cfg ∈ availableAlignTypes cfg →
      (h.save e).level ∈ (availableLevels cfg).map LevelDesc.id ∧
        (h.save e).align ∈ availableAlignTypes cfg) := by
  refine ⟨currentLevel_default_of_not_found, currentAlignType_default_of_not_found,
    currentLevel_mem_of_default_mem lvl, currentAlignType_mem_of_default_mem al, ?_⟩
  intro h e hcfg hlvl hal hdl hda
  constructor
  · show (currentLevel h.config h.data.level).id ∈ (availableLevels cfg).map LevelDesc.id
    rw [hcfg, hlvl]
    exact List.mem_map_of_mem LevelDesc.id (currentLevel_mem_of_default_mem lvl hdl)
  · show currentAlignType h.config h.data.align ∈ availableAlignTypes cfg
    rw [hcfg, hal]
    exact currentAlignType_mem_of_default_mem al hda

/-- C4 witness: under the unconfigured (all-defaults) configuration the
resolved defaults are available, so the stale stored values `9` /
`undefined` resolve inside the available sets, and a stale save output
satisfies the membership. -/
theorem c4_membership_witness :
    currentLevel emptyConfig 9 ∈ availableLevels emptyConfig ∧
    currentAlignType emptyConfig .undef ∈ availableAlignTypes emptyConfig := by
  exact ⟨(c4_membership emptyConfig 9 .undef).2.2.1 (by decide),
    (c4_membership emptyConfig 9 .undef).2.2.2.1 (by decide)⟩

/-- C5: when the configured `defaultLevel` is truthy and parses to the
id of an available level, the resolved default is exactly that level and
no warning is emitted; when `defaultLevel` is falsy (absent) or no
available level carries the parsed id (invalid or not found), the
resolved default is the built-in level 1 (tag `H1`) - with the console
warning emitted exactly in the truthy-but-not-found case - and no error
is raised. -/
theorem c5_userDefaultLevel (cfg : Config) :
    (∀ (n : Int) (l : LevelDesc), jsTruthy cfg.defaultLevel = true →
      parseIntJS cfg.defaultLevel = some n → l ∈ availableLevels cfg → l.id = n →
      userDefaultLevel cfg = l ∧ userDefaultLevelWarns cfg = false) ∧
    ((jsTruthy cfg.defaultLevel = false ∨
        (∀ l ∈ availableLevels cfg, some l.id ≠ parseIntJS cfg.defaultLevel)) →
      userDefaultLevel cfg = Header.DEFAULT_HEADER_LEVEL ∧
      Header.DEFAULT_HEADER_LEVEL = ⟨1, "H1", h1Icon⟩ ∧
      userDefaultLevelWarns cfg = jsTruthy cfg.defaultLevel) := by
  constructor
  · intro n l ht hp hl hid
    have hpl : some l.id = parseIntJS cfg.defaultLevel := by rw [hid, hp]
    cases hfind : (availableLevels cfg).find?
        (fun levelItem => decide (some levelItem.id = parseIntJS cfg.defaultLevel)) with
    | some l' =>
        have hl'mem : l' ∈ availableLevels cfg := List.mem_of_find?_eq_some hfind
        have hpl' : some l'.id = parseIntJS cfg.defaultLevel :=
          find?_decide_eq
            (q := fun levelItem : LevelDesc =>
              some levelItem.id = parseIntJS cfg.defaultLevel) hfind
        have hll : l' = l := by
          refine List.inj_on_of_nodup_map (availableLevels_ids_nodup cfg) hl'mem hl ?_
          show l'.id = l.id
          have := hpl'.trans hpl.symm
          exact Option.some.inj this
        constructor
        · unfold userDefaultLevel
          rw [if_pos ht, hfind, hll]
        · unfold userDefaultLevelWarns
          rw [ht, hfind]
          rfl
    | none =>
        exfalso
        have hsome := find?_decide_isSome
          (q := fun levelItem : LevelDesc =>
            some levelItem.id = parseIntJS cfg.defaultLevel) hl hpl
        rw [hfind] at hsome
        simp at hsome
  · intro hcase
    by_cases ht : jsTruthy cfg.defaultLevel
    · have hnf : ∀ l ∈ availableLevels cfg, some l.id ≠ parseIntJS cfg.defaultLevel := by
        rcases hcase with hf | hnf
        · rw [ht] at hf; exact absurd hf (by simp)
        · exact hnf
      have hfind : (availableLevels cfg).find?
          (fun levelItem => decide (some levelItem.id = parseIntJS cfg.defaultLevel)) = none := by
        cases hfind : (availableLevels cfg).find?
            (fun levelItem => decide (some levelItem.id = parseIntJS cfg.defaultLevel)) with
        | some l' =>
            exact absurd
              (find?_decide_eq
                (q := fun levelItem : LevelDesc =>
                  some levelItem.id = parseIntJS cfg.defaultLevel) hfind)
              (hnf l' (List.mem_of_find?_eq_some hfind))
        | none => rfl
      refine ⟨?_, rfl, ?_⟩
      · unfold userDefaultLevel
        rw [if_pos ht, hfind]
      · unfold userDefaultLevelWarns
        rw [ht, hfind]
        rfl
    · have ht' : jsTruthy cfg.defaultLevel = false := by
        cases h : jsTruthy cfg.defaultLevel
        · rfl
        · exact absurd h ht
      refine ⟨?_, rfl, ?_⟩
      · unfold userDefaultLevel
        rw [if_neg ht]
      · unfold userDefaultLevelWarns
        rw [ht']
        rfl

/-- C5 witness: with `defaultLevel: 3` and no allow-list, the resolved
default is the level-3 descriptor without a warning; with
`defaultLevel: "abc"` (parses to `NaN`), the resolved default is level 1
and the warning fires. -/
theorem c5_userDefaultLevel_witness :
    userDefaultLevel ⟨none, none, .num 3, none, .undef⟩ = ⟨3, "H3", h3Icon⟩ ∧
    userDefaultLevelWarns ⟨none, none, .num 3, none, .undef⟩ = false ∧
    userDefaultLevel ⟨none, none, .str "abc", none, .undef⟩ = Header.DEFAULT_HEADER_LEVEL ∧
    userDefaultLevelWarns ⟨none, none, .str "abc", none, .undef⟩ = true := by
  have h1 := (c5_userDefaultLevel ⟨none, none, .num 3, none, .undef⟩).1 3 ⟨3, "H3", h3Icon⟩
    (by decide) rfl (by decide) rfl
  have h2 := (c5_userDefaultLevel ⟨none, none, .str "abc", none, .undef⟩).2
    (Or.inr (by decide))
  exact ⟨h1.1, h1.2, h2.1, by rw [h2.2.2]; decide⟩

/-- C6: for a record with non-empty text, an available level id and an
available alignment name, constructing the widget from it (which
normalizes) and saving the rendered element - untouched by anything
else - returns the record unchanged. -/
theorem c6_roundtrip (tr : String → String) (ro : Bool) (cfg : Config)
    (t : String) (lvl : Int) (al : String) (h : Header) :
    t ≠ "" →
    lvl ∈ (availableLevels cfg).map LevelDesc.id →
    al ∈ availableAlignTypes cfg →
    Header.make tr ro (some cfg) (.obj (.str t) (.num lvl) (.str al)) = some h →
    h.save h.render = ⟨t, lvl, al⟩ := by
  intro ht hmem hal hmake
  have hlvl0 : lvl ≠ 0 := by
    obtain ⟨l, hlmem, hid⟩ := List.mem_map.mp hmem
    have hz := (by decide : ∀ l ∈ Header.HEADER_LEVELS, l.id ≠ 0) l (mem_availableLevels hlmem)
    rw [hid] at hz
    exact hz
  have hale : al ≠ "" := alignTypes_ne_empty al (mem_availableAlignTypes hal)
  have hd : _normalizeObj cfg (.str t) (.num lvl) (.str al) = ⟨.str t, lvl, .str al⟩ := by
    unfold _normalizeObj
    simp [jsTruthy, parseIntJS, bne_iff_ne, ht, hale, hlvl0]
  have hmk : Header.make tr ro (some cfg) (.obj (.str t) (.num lvl) (.str al)) =
      some ⟨tr, ro, cfg, _normalizeObj cfg (.str t) (.num lvl) (.str al),
        _getElement tr cfg ro (_normalizeObj cfg (.str t) (.num lvl) (.str al))⟩ := rfl
  rw [hmk] at hmake
  have hh := Option.some.inj hmake
  rw [hd] at hh
  subst hh
  have h1 : (currentLevel cfg lvl).id = lvl := (currentLevel_of_id_mem hmem).2
  have h2 : currentAlignType cfg (.str al) = al := currentAlignType_eq_of_mem hal
  simp [Header.save, Header.render, _getElement, h1, h2, jsTruthy, jsToString, bne_iff_ne, ht]

/-- The normalized state `{text:"Hi", level:2, align:"center"}`. -/
def dC6 : BlockData := ⟨.str "Hi", 2, .str "center"⟩

/-- The widget the constructor builds from `dC6` under the empty
configuration. -/
def hC6 : Header := ⟨id, false, emptyConfig, dC6, _getElement id emptyConfig false dC6⟩

/-- C6 witness: the concrete record `{text:"Hi", level:2,
align:"center"}` round-trips through construction, render and save. -/
theorem c6_roundtrip_witness : hC6.save hC6.render = ⟨"Hi", 2, "center"⟩ :=
  c6_roundtrip id false emptyConfig "Hi" 2 "center" hC6 (by decide) (by decide) (by decide) rfl

/-- C7: with a configured allow-list the available levels (resp.
alignment types) are exactly the built-in list restricted to members of
the allow-list; with the field absent the full built-in list is used;
and in either case the available list is a sublist of the built-in one,
so built-in order is preserved. -/
theorem c7_available_filtering (cfg : Config) :
    (∀ ls, cfg.levels = some ls →
      availableLevels cfg = Header.HEADER_LEVELS.filter (fun l => decide (l.id ∈ ls))) ∧
    (cfg.levels = none → availableLevels cfg = Header.HEADER_LEVELS) ∧
    (∀ as, cfg.alignTypes = some as →
      availableAlignTypes cfg = Header.ALIGN_TYPES.filter (fun a => decide (a ∈ as))) ∧
    (cfg.alignTypes = none → availableAlignTypes cfg = Header.ALIGN_TYPES) ∧
    (availableLevels cfg).Sublist Header.HEADER_LEVELS ∧
    (availableAlignTypes cfg).Sublist Header.ALIGN_TYPES := by
  refine ⟨?_, ?_, ?_, ?_, availableLevels_sublist cfg, availableAlignTypes_sublist cfg⟩
  · intro ls hls
    unfold availableLevels
    rw [hls]
  · intro hn
    unfold availableLevels
    rw [hn]
  · intro as has
    unfold availableAlignTypes
    rw [has]
  · intro hn
    unfold availableAlignTypes
    rw [hn]

/-- A configuration with allow-lists `[1, 3]` and `["right"]`. -/
def cfgC7 : Config := ⟨none, some [1, 3], .undef, some ["right"], .undef⟩

/-- C7 witness: the filtering equations at the concrete allow-lists
`[1, 3]` and `["right"]`. -/
theorem c7_available_filtering_witness :
    availableLevels cfgC7 =
      Header.HEADER_LEVELS.filter (fun l => decide (l.id ∈ ([1, 3] : List Int))) ∧
    availableAlignTypes cfgC7 =
      Header.ALIGN_TYPES.filter (fun a => decide (a ∈ (["right"] : List String))) :=
  ⟨(c7_available_filtering cfgC7).1 [1, 3] rfl,
    (c7_available_filtering cfgC7).2.2.1 ["right"] rfl⟩

/-- C8: for every known alignment name and every prior class list
(however corrupted), after the alignment-change callback the element's
class list contains the new name's alignment class, contains the
alignment class of none of the other three known names, and the stored
align field equals the new name. -/
theorem c8_setAlignType (h : Header) (newAlign : String)
    (hmem : newAlign ∈ Header.ALIGN_TYPES) :
    (h._setAlignType newAlign).data.align = .str newAlign ∧
    wrapperForAlignment newAlign ∈ (h._setAlignType newAlign).element.classList ∧
    (∀ a ∈ Header.ALIGN_TYPES, a ≠ newAlign →
      wrapperForAlignment a ∉ (h._setAlignType newAlign).element.classList) := by
  refine ⟨rfl, ?_, ?_⟩
  · fin_cases hmem <;>
      simp [Header._setAlignType, Header.ALIGN_TYPES, classListAdd, classListRemove,
        wrapperForAlignment]
  · intro a ha hne
    fin_cases hmem <;> fin_cases ha <;>
      first
      | exact absurd rfl hne
      | simp [Header._setAlignType, Header.ALIGN_TYPES, classListAdd, classListRemove,
          wrapperForAlignment]

/-- A widget whose element carries a corrupted class list with two
alignment classes at once. -/
def hC8 : Header :=
  ⟨id, false, emptyConfig, ⟨.str "Foo", 1, .str "left"⟩,
    ⟨"H1", "Foo", ["ce-header", "ce-header-align-left", "ce-header-align-right"], true, ""⟩⟩

/-- C8 witness: changing the alignment to `"center"` on the corrupted
element leaves exactly the wrapper class and the center class. -/
theorem c8_setAlignType_witness :
    (hC8._setAlignType "center").data.align = .str "center" ∧
    "ce-header-align-center" ∈ (hC8._setAlignType "center").element.classList ∧
    "ce-header-align-left" ∉ (hC8._setAlignType "center").element.classList ∧
    "ce-header-align-right" ∉ (hC8._setAlignType "center").element.classList ∧
    (hC8._setAlignType "center").element.classList = ["ce-header", "ce-header-align-center"] := by
  have hc := c8_setAlignType hC8 "center" (by decide)
  exact ⟨hc.1, hc.2.1, hc.2.2 "left" (by decide) (by decide),
    hc.2.2 "right" (by decide) (by decide), by decide⟩

/-- C9: from a state at level 1, with level 3 available, the
level-change callback with `3` on an attached element followed by save
yields level `3`, the tracked element's tag becomes `H3` and its inner
markup is the old element's markup; with no parent only the stored
level changes and the element is not replaced. -/
theorem c9_levelChange (h : Header) (hinit : h.data.level = 1)
    (hav : (3 : Int) ∈ (availableLevels h.config).map LevelDesc.id) :
    ((h._setHeaderLevel true (some 3)).save
        (h._setHeaderLevel true (some 3)).element).level = 3 ∧
    (h._setHeaderLevel true (some 3)).element.tag = "H3" ∧
    (h._setHeaderLevel true (some 3)).element.innerHTML = h.element.innerHTML ∧
    (h._setHeaderLevel false (some 3)).data.level = 3 ∧
    (h._setHeaderLevel false (some 3)).element = h.element := by
  have hcur := currentLevel_of_id_mem hav
  have htag : (currentLevel h.config 3).tag = "H3" :=
    (by decide : ∀ l ∈ Header.HEADER_LEVELS, l.id = 3 → l.tag = "H3") _
      (currentLevel_mem_headers h.config 3) hcur.2
  refine ⟨?_, ?_, rfl, rfl, rfl⟩
  · show (currentLevel h.config 3).id = 3
    exact hcur.2
  · show (currentLevel h.config 3).tag = "H3"
    exact htag

/-- A widget at level 1 whose element's markup was edited by the user. -/
def hC9 : Header :=
  ⟨id, false, emptyConfig, ⟨.str "Foo", 1, .str "left"⟩,
    ⟨"H1", "Edited", ["ce-header", "ce-header-align-left"], true, ""⟩⟩

/-- C9 witness: the level change to `3` on the concrete widget. -/
theorem c9_levelChange_witness :
    ((hC9._setHeaderLevel true (some 3)).save
        (hC9._setHeaderLevel true (some 3)).element).level = 3 ∧
    (hC9._setHeaderLevel true (some 3)).element.tag = "H3" ∧
    (hC9._setHeaderLevel true (some 3)).element.innerHTML = "Edited" ∧
    (hC9._setHeaderLevel false (some 3)).data.level = 3 ∧
    (hC9._setHeaderLevel false (some 3)).element = hC9.element := by
  have hc := c9_levelChange hC9 rfl (by decide)
  exact ⟨hc.1, hc.2.1, hc.2.2.1, hc.2.2.2.1, hc.2.2.2.2⟩

/-- C10: pasting an `H2` element with markup `"Hello"` while the
current alignment resolves to `"right"` (and level 2 is available) sets
the stored state to `{text:"Hello", level:2, align:"right"}` and
replaces the tracked element by a freshly built one with tag `H2` and
markup `"Hello"`; a pasted tag outside `H1`..`H6` maps to the resolved
default level id. -/
theorem c10_onPaste (h : Header) (tagNm txt : String) :
    (currentAlignType h.config h.data.align = "right" →
      (2 : Int) ∈ (availableLevels h.config).map LevelDesc.id →
      (h.onPaste ⟨"H2", "Hello"⟩).data = ⟨.str "Hello", 2, .str "right"⟩ ∧
      (h.onPaste ⟨"H2", "Hello"⟩).element.tag = "H2" ∧
      (h.onPaste ⟨"H2", "Hello"⟩).element.innerHTML = "Hello") ∧
    (tagNm ∉ (["H1", "H2", "H3", "H4", "H5", "H6"] : List String) →
      (h.onPaste ⟨tagNm, txt⟩).data.level = (userDefaultLevel h.config).id) := by
  constructor
  · intro hal hav
    have hcur := currentLevel_of_id_mem hav
    have htag : (currentLevel h.config 2).tag = "H2" :=
      (by decide : ∀ l ∈ Header.HEADER_LEVELS, l.id = 2 → l.tag = "H2") _
        (currentLevel_mem_headers h.config 2) hcur.2
    have hdval : (h.onPaste ⟨"H2", "Hello"⟩).data = ⟨.str "Hello", 2, .str "right"⟩ := by
      show _normalizeObj h.config (.str "Hello") (.num (tagToLevel h.config "H2"))
          (.str (currentAlignType h.config h.data.align)) = ⟨.str "Hello", 2, .str "right"⟩
      rw [hal]
      rfl
    refine ⟨hdval, ?_, rfl⟩
    · show (currentLevel h.config (h.onPaste ⟨"H2", "Hello"⟩).data.level).tag = "H2"
      rw [hdval]
      exact htag
  · intro hnot
    simp only [List.mem_cons, List.mem_singleton, not_or] at hnot
    obtain ⟨hn1, hn2, hn3, hn4, hn5, hn6⟩ := hnot
    have hlv : tagToLevel h.config tagNm = (userDefaultLevel h.config).id := by
      simp [tagToLevel, hn1, hn2, hn3, hn4, hn5, hn6]
    have hz := userDefaultLevel_id_ne_zero h.config
    show (_normalizeObj h.config (.str txt) (.num (tagToLevel h.config tagNm))
        (.str (currentAlignType h.config h.data.align))).level = (userDefaultLevel h.config).id
    rw [hlv]
    simp [_normalizeObj, parseIntJS, hz]

/-- A widget whose stored alignment is `"right"` under the empty
configuration. -/
def hC10 : Header :=
  ⟨id, false, emptyConfig, ⟨.str "x", 1, .str "right"⟩,
    ⟨"H1", "x", ["ce-header", "ce-header-align-right"], true, ""⟩⟩

/-- C10 witness: the `H2` paste on the concrete widget, and a `DIV`
paste falling back to the default level id 1. -/
theorem c10_onPaste_witness :
    (hC10.onPaste ⟨"H2", "Hello"⟩).data = ⟨.str "Hello", 2, .str "right"⟩ ∧
    (hC10.onPaste ⟨"H2", "Hello"⟩).element.tag = "H2" ∧
    (hC10.onPaste ⟨"H2", "Hello"⟩).element.innerHTML = "Hello" ∧
    (hC10.onPaste ⟨"DIV", "Hello"⟩).data.level = 1 := by
  have hc := c10_onPaste hC10 "DIV" "Hello"
  have h1 := hc.1 (by decide) (by decide)
  have h2 := hc.2 (by decide)
  exact ⟨h1.1, h1.2.1, h1.2.2, h2⟩
